import Mathlib

/-!
# Verification of the govwin control-plane and scoring data model

Shallow embedding of the Postgres control plane declared in the repository's
migrations (rate limiter, job queue with atomic dequeue, notify trigger,
generated priority-tier column) and of the pagination logic of the
`GET /api/opportunities` route.  SQL `INT` columns become `Int`, nullable
columns become `Option`, `NUMERIC(5,1)` scores become `ℚ`, tables become
lists of rows, and each stored procedure becomes a state-passing function.
-/

namespace GovWin

/-! ## Rate limiter (`rate_limit_state`, `get_remaining_quota`)

One row of `rate_limit_state`.  `window_date` is a day number and
`window_hour` an hour, both `Int` as in the SQL (`DATE` ordered by day,
`EXTRACT(HOUR FROM NOW())::INT`).  `daily_limit`/`hourly_limit` are nullable. -/

structure RateLimitState where
  requests_today : Int
  requests_this_hour : Int
  daily_limit : Option Int
  hourly_limit : Option Int
  window_date : Int
  window_hour : Int
deriving Repr, DecidableEq

/-- Return row of `get_remaining_quota`:
`TABLE(daily_remaining INT, hourly_remaining INT, can_proceed BOOLEAN)`. -/
structure QuotaResult where
  daily_remaining : Option Int
  hourly_remaining : Option Int
  can_proceed : Bool
deriving Repr, DecidableEq

/-- First window-reset `IF` of `get_remaining_quota`:
`IF r.window_date < CURRENT_DATE THEN UPDATE ... SET requests_today = 0,
window_date = CURRENT_DATE`. -/
def resetDaily (r : RateLimitState) (currentDate : Int) : RateLimitState :=
  if r.window_date < currentDate then
    { r with requests_today := 0, window_date := currentDate } else r

/-- Second window-reset `IF` of `get_remaining_quota`:
`IF r.window_hour != EXTRACT(HOUR FROM NOW())::INT THEN UPDATE ... SET
requests_this_hour = 0, window_hour = ...`. -/
def resetHourly (r : RateLimitState) (currentHour : Int) : RateLimitState :=
  if r.window_hour ≠ currentHour then
    { r with requests_this_hour := 0, window_hour := currentHour } else r

/-- The two window-reset `IF` statements of `get_remaining_quota` in order:
the row state after both conditional `UPDATE`s. -/
def resetWindows (r : RateLimitState) (currentDate currentHour : Int) : RateLimitState :=
  resetHourly (resetDaily r currentDate) currentHour

/-- SQL `lim IS NULL OR count < lim`, as in the `can_proceed` expression. -/
def nullOrLt (count : Int) (lim : Option Int) : Bool :=
  match lim with
  | none => true
  | some l => decide (count < l)

/-- `get_remaining_quota(p_source)`: applies the two window resets, then returns
`daily_remaining = daily_limit - requests_today` (NULL if no limit), likewise
hourly, and
`can_proceed = (daily_limit IS NULL OR requests_today < daily_limit)
           AND (hourly_limit IS NULL OR requests_this_hour < hourly_limit)`,
all over the post-reset row.  The second component is the row as left in the
table. -/
def get_remaining_quota (r : RateLimitState) (currentDate currentHour : Int) :
    QuotaResult × RateLimitState :=
  let r2 := resetWindows r currentDate currentHour
  ({ daily_remaining := match r2.daily_limit with
       | none => none
       | some l => some (l - r2.requests_today),
     hourly_remaining := match r2.hourly_limit with
       | none => none
       | some l => some (l - r2.requests_this_hour),
     can_proceed := nullOrLt r2.requests_today r2.daily_limit &&
                    nullOrLt r2.requests_this_hour r2.hourly_limit },
   r2)

/-! ## Priority tier (`tenant_opportunities.priority_tier` generated column) -/

/-- The `priority_tier` generated column:
`CASE WHEN total_score >= 75 THEN 'high' WHEN total_score >= 50 THEN 'medium'
ELSE 'low' END`.  A NULL `total_score` makes both comparisons non-true in SQL
three-valued logic, so the CASE falls through to the ELSE branch: `none`
maps to `"low"`. -/
def priority_tier (total_score : Option ℚ) : String :=
  match total_score with
  | some s => if 75 ≤ s then "high" else if 50 ≤ s then "medium" else "low"
  | none => "low"

/-- A `tenant_opportunities` row (columns not involved in the verified claims
are elided).  `priority_tier` is `GENERATED ALWAYS ... STORED`, so it is not a
field of the row but the function `rowPriorityTier` below. -/
structure TenantOpportunityRow where
  tenant_id : Nat
  opportunity_id : Nat
  total_score : Option ℚ
  llm_adjustment : ℚ
  pursuit_status : String
deriving Repr, DecidableEq

/-- The stored generated value of `priority_tier` for a row: being
`GENERATED ALWAYS`, it is exactly `priority_tier` of the row's
`total_score` and cannot be written independently. -/
def rowPriorityTier (r : TenantOpportunityRow) : String :=
  priority_tier r.total_score

/-! ## Scoring engine (total-score computation) -/

/-- Clamp of a score to `[0,100]`. -/
def clampScore (x : ℚ) : ℚ := max 0 (min x 100)

/-- Output of one scoring pass: the written `total_score` and
`llm_adjustment` columns. -/
structure ScoreResult where
  total_score : ℚ
  llm_adjustment : ℚ
deriving Repr, DecidableEq

/-- Modelled from the spec: the Scoring Engine runs in the worker process,
whose code is not among this repository's sources; only the
`tenant_opportunities` columns it writes and the `system_config` keys
`scoring.llm_trigger_score` and `scoring.llm_max_adjustment` appear here.
Per §4.4: total score = clamp(sum of sub-scores, 0, 100); if the total
exceeds the configured trigger threshold, the qualitative analyzer returns a
bounded adjustment (magnitude at most the configured max), which is applied
and the total re-clamped to [0,100]; an absent analyzer result (best-effort
failure) leaves the total unadjusted.  `analysis` is the analyzer's raw
adjustment, `none` on `AnalysisError`; the bound is enforced on application. -/
def scoreOpportunity (triggerScore maxAdjustment : ℚ) (subScores : List ℚ)
    (analysis : Option ℚ) : ScoreResult :=
  let base := clampScore subScores.sum
  if triggerScore < base then
    match analysis with
    | some adj =>
        let bounded := max (-maxAdjustment) (min adj maxAdjustment)
        { total_score := clampScore (base + bounded), llm_adjustment := bounded }
    | none => { total_score := base, llm_adjustment := 0 }
  else { total_score := base, llm_adjustment := 0 }

/-! ## Job queue (`pipeline_jobs`, `dequeue_job`, `notify_pipeline_worker`)

A `pipeline_jobs` row (columns not involved in the verified claims elided).
`id` stands for the UUID primary key, `triggered_at`/`started_at` for the
timestamps. -/

structure PipelineJob where
  id : Nat
  source : String
  run_type : String
  status : String
  priority : Int
  triggered_at : Int
  started_at : Option Int
  worker_id : Option String
deriving Repr, DecidableEq

/-- Strict ordering used by `ORDER BY priority ASC, triggered_at ASC`:
`a` sorts strictly before `b`. -/
def jobBefore (a b : PipelineJob) : Bool :=
  decide (a.priority < b.priority) ||
    (decide (a.priority = b.priority) && decide (a.triggered_at < b.triggered_at))

/-- `SELECT ... ORDER BY priority ASC, triggered_at ASC LIMIT 1` over a list of
candidate rows: a row minimal for `jobBefore` (SQL leaves the order among ties
unspecified; any lex-minimal row is a faithful result). -/
def selectMin : List PipelineJob → Option PipelineJob
  | [] => none
  | j :: rest =>
    match selectMin rest with
    | none => some j
    | some k => if jobBefore k j then some k else some j

/-- The `WHERE status = 'pending' ... FOR UPDATE SKIP LOCKED` filter: `locked`
holds the ids of rows currently row-locked by another in-flight transaction,
which are skipped rather than waited on. -/
def eligibleJob (locked : List Nat) (j : PipelineJob) : Bool :=
  j.status == "pending" && !(locked.contains j.id)

/-- `dequeue_job(p_worker_id)`: selects the first `pending` row by
`ORDER BY priority ASC, triggered_at ASC LIMIT 1 FOR UPDATE SKIP LOCKED`; if
found, in the same transaction updates it to
`status = 'running', started_at = NOW(), worker_id = p_worker_id` and returns
the updated row (`RETURNING * INTO v_job`).  The whole call is one atomic
step against the table (the selected row is locked until the update commits),
so concurrent calls are modelled as a sequence of such steps.  Returns the
leased row (or `none` when no job is available) and the new table state. -/
def dequeue_job (jobs : List PipelineJob) (locked : List Nat)
    (p_worker_id : String) (now : Int) :
    Option PipelineJob × List PipelineJob :=
  match selectMin (jobs.filter (eligibleJob locked)) with
  | none => (none, jobs)
  | some v =>
      let v2 := { v with status := "running", started_at := some now,
                         worker_id := some p_worker_id }
      (some v2, jobs.map fun j => if j.id == v.id then v2 else j)

/-- Payload of a `pg_notify('pipeline_worker', ...)` event:
`{job_id, source, run_type, priority}`. -/
structure WakeEvent where
  job_id : Nat
  source : String
  run_type : String
  priority : Int
deriving Repr, DecidableEq

/-- Trigger function `notify_pipeline_worker()`: publishes one event on the
`pipeline_worker` channel when `NEW.status = 'pending'`, nothing otherwise. -/
def notify_pipeline_worker (NEW : PipelineJob) : List WakeEvent :=
  if NEW.status == "pending" then
    [{ job_id := NEW.id, source := NEW.source,
       run_type := NEW.run_type, priority := NEW.priority }]
  else []

/-- `INSERT INTO pipeline_jobs`: the trigger `trg_notify_pipeline_worker` is
declared `AFTER INSERT ... FOR EACH ROW`, so the insert fires
`notify_pipeline_worker` on the new row.  Returns the new table state and the
published events. -/
def insertJob (jobs : List PipelineJob) (j : PipelineJob) :
    List PipelineJob × List WakeEvent :=
  (jobs ++ [j], notify_pipeline_worker j)

/-- `UPDATE pipeline_jobs SET status = ...` (as used by the failed-to-pending
requeue).  The schema declares no UPDATE trigger on `pipeline_jobs`
(`trg_notify_pipeline_worker` is AFTER INSERT only), so no event is
published. -/
def updateJobStatus (jobs : List PipelineJob) (jobId : Nat) (newStatus : String) :
    List PipelineJob × List WakeEvent :=
  (jobs.map fun j => if j.id == jobId then { j with status := newStatus } else j, [])

/-! ## Pagination of `GET /api/opportunities` (route.ts)

JavaScript numeric parsing: a query parameter is absent (`none` outer), parses
to NaN (`some none`), or parses to a number (`some (some v)`). -/

/-- JS `x || d` on a number `x` (`none` models NaN): NaN and 0 are falsy and
yield the default. -/
def jsOrDefault (x : Option ℚ) (d : ℚ) : ℚ :=
  match x with
  | none => d
  | some v => if v = 0 then d else v

/-- `Math.max(1, Math.min(Number(searchParams.get('limit') ?? 50) || 50, 100))`:
an absent parameter becomes `Number(50) = 50`; a present one parses to a
number or NaN. -/
def limitParam (raw : Option (Option ℚ)) : ℚ :=
  max 1 (min (jsOrDefault (raw.getD (some 50)) 50) 100)

/-- `Math.max(0, Number(searchParams.get('offset') ?? 0) || 0)`. -/
def offsetParam (raw : Option (Option ℚ)) : ℚ :=
  max 0 (jsOrDefault (raw.getD (some 0)) 0)

/-- The `data` array of the response: the filtered `tenant_pipeline` rows after
`LIMIT limitParam OFFSET offsetParam`.  The SQL LIMIT/OFFSET arguments are
integral for every real request; non-integral values are rounded up here,
which can only enlarge the page. -/
def pageRows {α : Type} (rows : List α) (rawLimit rawOffset : Option (Option ℚ)) :
    List α :=
  (rows.drop (Int.ceil (offsetParam rawOffset)).toNat).take
    (Int.ceil (limitParam rawLimit)).toNat

/-! ## Concrete probe inputs used to evaluate the definitions -/

/-- A pending job of priority 1, triggered at time 10 (enqueued later). -/
def jobA : PipelineJob :=
  { id := 1, source := "A", run_type := "full", status := "pending",
    priority := 1, triggered_at := 10, started_at := none, worker_id := none }

/-- A pending job of priority 5, triggered at time 0 (enqueued earlier). -/
def jobB : PipelineJob :=
  { id := 2, source := "A", run_type := "full", status := "pending",
    priority := 5, triggered_at := 0, started_at := none, worker_id := none }

/-- `jobA` as leased by worker `w1` at time 20. -/
def jobARunning : PipelineJob :=
  { jobA with status := "running", started_at := some 20, worker_id := some "w1" }

/-- `jobB` as leased by worker `w1` at time 20. -/
def jobBRunning : PipelineJob :=
  { jobB with status := "running", started_at := some 20, worker_id := some "w1" }

/-- A completed job, not eligible for dequeue. -/
def jobDone : PipelineJob :=
  { id := 3, source := "B", run_type := "full", status := "completed",
    priority := 0, triggered_at := 0, started_at := some 1, worker_id := some "w0" }

/-- Rate-limit row with 3 requests recorded today against a daily limit of
1000, windows current (date 5, hour 7). -/
def quotaProbe : RateLimitState :=
  { requests_today := 3, requests_this_hour := 0, daily_limit := some 1000,
    hourly_limit := none, window_date := 5, window_hour := 7 }

/-- Rate-limit row whose stored daily window (date 1) is ahead of the clock. -/
def futureWindowProbe : RateLimitState :=
  { requests_today := 5, requests_this_hour := 0, daily_limit := none,
    hourly_limit := none, window_date := 1, window_hour := 0 }

/-- Rate-limit row about to cross both a day and an hour boundary. -/
def rolloverProbe : RateLimitState :=
  { requests_today := 7, requests_this_hour := 3, daily_limit := some 1000,
    hourly_limit := some 30, window_date := 0, window_hour := 5 }

/-- Rate-limit row for `sam_gov` with its daily limit of 1000 exhausted
within the current day. -/
def exhaustedProbe : RateLimitState :=
  { requests_today := 1000, requests_this_hour := 0, daily_limit := some 1000,
    hourly_limit := none, window_date := 0, window_hour := 0 }

/-! ## Helper lemmas on the job queue -/

theorem jobBefore_eq_true_iff (a b : PipelineJob) :
    jobBefore a b = true ↔
      (a.priority < b.priority ∨
        (a.priority = b.priority ∧ a.triggered_at < b.triggered_at)) := by
  simp [jobBefore]

theorem jobBefore_eq_false_iff (a b : PipelineJob) :
    jobBefore a b = false ↔
      (b.priority < a.priority ∨
        (b.priority = a.priority ∧ b.triggered_at ≤ a.triggered_at)) := by
  constructor
  · intro h
    have h2 : ¬ jobBefore a b = true := by simp [h]
    rw [jobBefore_eq_true_iff] at h2
    omega
  · intro h
    have h2 : ¬ jobBefore a b = true := by
      rw [jobBefore_eq_true_iff]
      omega
    simpa using h2

theorem eligibleJob_eq_true_iff (locked : List Nat) (j : PipelineJob) :
    eligibleJob locked j = true ↔ (j.status = "pending" ∧ j.id ∉ locked) := by
  simp [eligibleJob]

theorem selectMin_cons_exists (a : PipelineJob) (t : List PipelineJob) :
    ∃ v, selectMin (a :: t) = some v := by
  simp only [selectMin]
  cases ht : selectMin t with
  | none => exact ⟨a, rfl⟩
  | some k =>
      dsimp only
      split
      · exact ⟨k, rfl⟩
      · exact ⟨a, rfl⟩

theorem selectMin_mem : ∀ {l : List PipelineJob} {v : PipelineJob},
    selectMin l = some v → v ∈ l := by
  intro l
  induction l with
  | nil => intro v h; exact absurd h (by simp [selectMin])
  | cons a rest ih =>
      intro v h
      simp only [selectMin] at h
      cases hrest : selectMin rest with
      | none =>
          rw [hrest] at h
          simp only at h
          cases h
          exact List.mem_cons_self a rest
      | some k =>
          rw [hrest] at h
          simp only at h
          split at h
          · cases h
            exact List.mem_cons_of_mem a (ih hrest)
          · cases h
            exact List.mem_cons_self a rest

theorem selectMin_not_before : ∀ {l : List PipelineJob} {v : PipelineJob},
    selectMin l = some v → ∀ j ∈ l, jobBefore j v = false := by
  intro l
  induction l with
  | nil => intro v h; exact absurd h (by simp [selectMin])
  | cons a rest ih =>
      intro v h j hj
      simp only [selectMin] at h
      cases hrest : selectMin rest with
      | none =>
          rw [hrest] at h
          simp only at h
          cases h
          rcases List.mem_cons.mp hj with hja | hjr
          · rw [hja]
            simp [jobBefore]
          · have : rest = [] := by
              cases rest with
              | nil => rfl
              | cons b t =>
                  exact absurd hrest (by
                    obtain ⟨w2, hw2⟩ := selectMin_cons_exists b t
                    simp [hw2])
            rw [this] at hjr
            exact absurd hjr (List.not_mem_nil j)
      | some k =>
          rw [hrest] at h
          simp only at h
          split at h
          case isTrue hb =>
            cases h
            rcases List.mem_cons.mp hj with hja | hjr
            · rw [hja]
              rw [jobBefore_eq_true_iff] at hb
              rw [jobBefore_eq_false_iff]
              omega
            · exact ih hrest j hjr
          case isFalse hb =>
            cases h
            rcases List.mem_cons.mp hj with hja | hjr
            · rw [hja]
              simp [jobBefore]
            · have h1 := ih hrest j hjr
              have hb2 : jobBefore k a = false := by
                cases hkb : jobBefore k a with
                | false => rfl
                | true => exact absurd hkb hb
              rw [jobBefore_eq_false_iff] at h1 hb2 ⊢
              omega

theorem dequeue_job_eq_some {jobs jobs2 : List PipelineJob} {locked : List Nat}
    {w : String} {now : Int} {v2 : PipelineJob}
    (h : dequeue_job jobs locked w now = (some v2, jobs2)) :
    ∃ v, selectMin (jobs.filter (eligibleJob locked)) = some v ∧
      v2 = { v with status := "running", started_at := some now,
                    worker_id := some w } ∧
      jobs2 = jobs.map (fun j => if j.id == v.id then v2 else j) := by
  unfold dequeue_job at h
  cases hsel : selectMin (jobs.filter (eligibleJob locked)) with
  | none =>
      rw [hsel] at h
      simp only [Prod.mk.injEq] at h
      exact absurd h.1 (by simp)
  | some v =>
      rw [hsel] at h
      simp only [Prod.mk.injEq, Option.some.injEq] at h
      obtain ⟨h1, h2⟩ := h
      exact ⟨v, rfl, h1.symm, by rw [← h1, ← h2]⟩

/-! ## Helper lemmas on the rate limiter -/

theorem resetDaily_daily_limit (r : RateLimitState) (d : Int) :
    (resetDaily r d).daily_limit = r.daily_limit := by
  unfold resetDaily
  split <;> rfl

theorem resetDaily_hourly_limit (r : RateLimitState) (d : Int) :
    (resetDaily r d).hourly_limit = r.hourly_limit := by
  unfold resetDaily
  split <;> rfl

theorem resetDaily_requests_this_hour (r : RateLimitState) (d : Int) :
    (resetDaily r d).requests_this_hour = r.requests_this_hour := by
  unfold resetDaily
  split <;> rfl

theorem resetDaily_window_hour (r : RateLimitState) (d : Int) :
    (resetDaily r d).window_hour = r.window_hour := by
  unfold resetDaily
  split <;> rfl

theorem resetHourly_daily_limit (r : RateLimitState) (h : Int) :
    (resetHourly r h).daily_limit = r.daily_limit := by
  unfold resetHourly
  split <;> rfl

theorem resetHourly_hourly_limit (r : RateLimitState) (h : Int) :
    (resetHourly r h).hourly_limit = r.hourly_limit := by
  unfold resetHourly
  split <;> rfl

theorem resetHourly_requests_today (r : RateLimitState) (h : Int) :
    (resetHourly r h).requests_today = r.requests_today := by
  unfold resetHourly
  split <;> rfl

theorem resetHourly_window_date (r : RateLimitState) (h : Int) :
    (resetHourly r h).window_date = r.window_date := by
  unfold resetHourly
  split <;> rfl

theorem resetWindows_daily_limit (r : RateLimitState) (d h : Int) :
    (resetWindows r d h).daily_limit = r.daily_limit := by
  unfold resetWindows
  rw [resetHourly_daily_limit, resetDaily_daily_limit]

theorem resetWindows_hourly_limit (r : RateLimitState) (d h : Int) :
    (resetWindows r d h).hourly_limit = r.hourly_limit := by
  unfold resetWindows
  rw [resetHourly_hourly_limit, resetDaily_hourly_limit]

theorem get_remaining_quota_snd (r : RateLimitState) (d h : Int) :
    (get_remaining_quota r d h).2 = resetWindows r d h := rfl

theorem get_remaining_quota_can_proceed_eq (r : RateLimitState) (d h : Int) :
    (get_remaining_quota r d h).1.can_proceed =
      (nullOrLt (resetWindows r d h).requests_today
          (resetWindows r d h).daily_limit &&
       nullOrLt (resetWindows r d h).requests_this_hour
          (resetWindows r d h).hourly_limit) := rfl

theorem resetWindows_requests_today_of_lt (r : RateLimitState) (d h : Int)
    (hlt : r.window_date < d) :
    (resetWindows r d h).requests_today = 0 ∧
      (resetWindows r d h).window_date = d := by
  unfold resetWindows
  rw [resetHourly_requests_today, resetHourly_window_date]
  unfold resetDaily
  rw [if_pos hlt]
  exact ⟨rfl, rfl⟩

theorem resetWindows_hourly_of_ne (r : RateLimitState) (d h : Int)
    (hne : r.window_hour ≠ h) :
    (resetWindows r d h).requests_this_hour = 0 ∧
      (resetWindows r d h).window_hour = h := by
  unfold resetWindows resetHourly
  rw [resetDaily_window_hour, if_pos hne]
  exact ⟨rfl, rfl⟩

theorem resetWindows_requests_today_cases (r : RateLimitState) (d h : Int) :
    (resetWindows r d h).requests_today = r.requests_today ∨
      (resetWindows r d h).requests_today = 0 := by
  unfold resetWindows
  rw [resetHourly_requests_today]
  unfold resetDaily
  split
  · exact Or.inr rfl
  · exact Or.inl rfl

theorem resetWindows_requests_this_hour_cases (r : RateLimitState) (d h : Int) :
    (resetWindows r d h).requests_this_hour = r.requests_this_hour ∨
      (resetWindows r d h).requests_this_hour = 0 := by
  unfold resetWindows resetHourly
  split
  · exact Or.inr rfl
  · exact Or.inl (resetDaily_requests_this_hour r d)

theorem nullOrLt_eq_true_iff (c : Int) (lim : Option Int) :
    nullOrLt c lim = true ↔ (lim = none ∨ ∃ l, lim = some l ∧ c < l) := by
  cases lim <;> simp [nullOrLt]

/-- A member of the post-dequeue table that carries the leased id is the
leased row itself. -/
theorem mem_map_lease {jobs : List PipelineJob} {v v2 u : PipelineJob}
    (hu : u ∈ jobs.map (fun j => if j.id == v.id then v2 else j))
    (hid : u.id = v2.id) (hv2id : v2.id = v.id) : u = v2 := by
  obtain ⟨orig, horig, heq⟩ := List.mem_map.mp hu
  by_cases hb : (orig.id == v.id) = true
  · rw [if_pos hb] at heq
    exact heq.symm
  · rw [if_neg hb] at heq
    exact absurd (show orig.id = v.id by rw [heq, hid, hv2id]) (by simpa using hb)

/-! ## Claim theorems -/

/-- C1: `dequeue_job` selects only a `pending` job and, in the same atomic
step, transitions it to `running` with the caller's worker identity and start
timestamp; the leased row is in the post state, a job already `running` is
never handed out, and of any two serialized concurrent dequeue calls at most
one obtains a given job. -/
theorem C1_dequeue_job_atomic_lease
    (jobs jobs2 : List PipelineJob) (locked : List Nat) (w : String) (now : Int)
    (v2 : PipelineJob)
    (hids : ∀ a ∈ jobs, ∀ b ∈ jobs, a.id = b.id → a = b)
    (h : dequeue_job jobs locked w now = (some v2, jobs2)) :
    (∃ v ∈ jobs, v.status = "pending" ∧ v.id = v2.id) ∧
    v2.status = "running" ∧ v2.worker_id = some w ∧ v2.started_at = some now ∧
    v2 ∈ jobs2 ∧
    (∀ j ∈ jobs, j.status = "running" → v2.id ≠ j.id) ∧
    (∀ locked2 w2 now2 v3 jobs3,
      dequeue_job jobs2 locked2 w2 now2 = (some v3, jobs3) → v3.id ≠ v2.id) := by
  obtain ⟨v, hsel, hv2, hjobs2⟩ := dequeue_job_eq_some h
  have hvf := List.mem_filter.mp (selectMin_mem hsel)
  have hvmem : v ∈ jobs := hvf.1
  have hpend : v.status = "pending" :=
    ((eligibleJob_eq_true_iff locked v).mp hvf.2).1
  have hid : v2.id = v.id := by rw [hv2]
  refine ⟨⟨v, hvmem, hpend, hid.symm⟩, by rw [hv2], by rw [hv2], by rw [hv2],
    ?_, ?_, ?_⟩
  · rw [hjobs2]
    refine List.mem_map.mpr ⟨v, hvmem, ?_⟩
    rw [if_pos (by simp)]
  · intro j hj hrun hne
    have hvj : v = j := hids v hvmem j hj (by rw [← hid]; exact hne)
    rw [hvj] at hpend
    rw [hpend] at hrun
    exact absurd hrun (by decide)
  · intro locked2 w2 now2 v3 jobs3 h3 hne
    obtain ⟨u, hsel3, hv3, _⟩ := dequeue_job_eq_some h3
    have huf := List.mem_filter.mp (selectMin_mem hsel3)
    have hupend : u.status = "pending" :=
      ((eligibleJob_eq_true_iff locked2 u).mp huf.2).1
    have huid : u.id = v2.id := by rw [← hne, hv3]
    have humem : u ∈ jobs2 := huf.1
    rw [hjobs2] at humem
    have huv2 : u = v2 := mem_map_lease humem huid hid
    rw [huv2, hv2] at hupend
    exact absurd (show ("running" : String) = "pending" from hupend) (by decide)

/-- C1 witness: on the two-job queue `[jobB, jobA]`, worker `w1` at time 20
leases `jobA`, whose pre-image is pending and whose lease fields are set. -/
theorem C1_dequeue_job_atomic_lease_witness :
    (∃ v ∈ [jobB, jobA], v.status = "pending" ∧ v.id = jobARunning.id) ∧
    jobARunning.status = "running" ∧ jobARunning.worker_id = some "w1" ∧
    jobARunning.started_at = some 20 := by
  have H := C1_dequeue_job_atomic_lease [jobB, jobA] [jobB, jobARunning] []
    "w1" 20 jobARunning (by decide) (by decide)
  exact ⟨H.1, H.2.1, H.2.2.1, H.2.2.2.1⟩

/-- C3: whenever an eligible pending job exists, `dequeue_job` returns a job;
whatever it returns is unlocked and minimal among unlocked pending rows by
priority ascending, then trigger time ascending. -/
theorem C3_dequeue_job_priority_order
    (jobs : List PipelineJob) (locked : List Nat) (w : String) (now : Int) :
    ((∃ j ∈ jobs, j.status = "pending" ∧ j.id ∉ locked) →
      ∃ v2 jobs2, dequeue_job jobs locked w now = (some v2, jobs2)) ∧
    (∀ v2 jobs2, dequeue_job jobs locked w now = (some v2, jobs2) →
      v2.id ∉ locked ∧
      ∀ j ∈ jobs, j.status = "pending" → j.id ∉ locked →
        (v2.priority < j.priority ∨
          (v2.priority = j.priority ∧ v2.triggered_at ≤ j.triggered_at))) := by
  constructor
  · rintro ⟨j, hj, hp, hnl⟩
    have hjf : j ∈ jobs.filter (eligibleJob locked) :=
      List.mem_filter.mpr ⟨hj, (eligibleJob_eq_true_iff locked j).mpr ⟨hp, hnl⟩⟩
    obtain ⟨a, t, hft⟩ := List.exists_cons_of_ne_nil (List.ne_nil_of_mem hjf)
    obtain ⟨v, hv⟩ := selectMin_cons_exists a t
    unfold dequeue_job
    rw [hft, hv]
    exact ⟨_, _, rfl⟩
  · intro v2 jobs2 h
    obtain ⟨v, hsel, hv2, _⟩ := dequeue_job_eq_some h
    have hvf := List.mem_filter.mp (selectMin_mem hsel)
    have helig := (eligibleJob_eq_true_iff locked v).mp hvf.2
    have hid : v2.id = v.id := by rw [hv2]
    constructor
    · rw [hid]
      exact helig.2
    · intro j hj hp hnl
      have hjf : j ∈ jobs.filter (eligibleJob locked) :=
        List.mem_filter.mpr ⟨hj, (eligibleJob_eq_true_iff locked j).mpr ⟨hp, hnl⟩⟩
      have hnb := selectMin_not_before hsel j hjf
      rw [jobBefore_eq_false_iff] at hnb
      have hp2 : v2.priority = v.priority := by rw [hv2]
      have ht2 : v2.triggered_at = v.triggered_at := by rw [hv2]
      omega

/-- C3 witness: the priority-1 job `jobA` is returned before the earlier
priority-5 job `jobB`; with `jobA`'s row locked by another lease attempt,
`jobB` is returned instead of blocking. -/
theorem C3_dequeue_job_priority_order_witness :
    (∃ v2 jobs2, dequeue_job [jobB, jobA] [] "w1" 20 = (some v2, jobs2)) ∧
    (dequeue_job [jobB, jobA] [] "w1" 20).1 = some jobARunning ∧
    (dequeue_job [jobB, jobA] [jobA.id] "w1" 20).1 = some jobBRunning := by
  refine ⟨(C3_dequeue_job_priority_order [jobB, jobA] [] "w1" 20).1
    ⟨jobA, by decide, by decide, by decide⟩, by decide, by decide⟩

/-- C9: a wake event on the `pipeline_worker` channel is published exactly by
an insert of a row whose status is `pending`; an UPDATE of a job's status —
in particular the failed-to-pending requeue — publishes nothing, since the
only trigger on `pipeline_jobs` is AFTER INSERT. -/
theorem C9_notify_only_on_pending_insert
    (jobs : List PipelineJob) (j : PipelineJob) (jobId : Nat) (st : String) :
    (insertJob jobs j).2 = notify_pipeline_worker j ∧
    (j.status = "pending" →
      (insertJob jobs j).2 =
        [{ job_id := j.id, source := j.source,
           run_type := j.run_type, priority := j.priority }]) ∧
    (j.status ≠ "pending" → (insertJob jobs j).2 = []) ∧
    (updateJobStatus jobs jobId st).2 = [] := by
  refine ⟨rfl, fun hp => ?_, fun hnp => ?_, rfl⟩
  · simp [insertJob, notify_pipeline_worker, hp]
  · simp [insertJob, notify_pipeline_worker, hnp]

/-- C9 witness: inserting pending `jobA` publishes its payload, inserting the
completed `jobDone` publishes nothing, and requeueing a job to `pending` via
UPDATE publishes nothing. -/
theorem C9_notify_only_on_pending_insert_witness :
    (insertJob [] jobA).2 =
      [{ job_id := 1, source := "A", run_type := "full", priority := 1 }] ∧
    (insertJob [] jobDone).2 = [] ∧
    (updateJobStatus [jobDone] 3 "pending").2 = [] := by
  have H1 := C9_notify_only_on_pending_insert ([] : List PipelineJob) jobA 3 "pending"
  have H2 := C9_notify_only_on_pending_insert ([] : List PipelineJob) jobDone 3 "pending"
  have H3 := C9_notify_only_on_pending_insert [jobDone] jobA 3 "pending"
  exact ⟨H1.2.1 rfl, H2.2.2.1 (by decide), H3.2.2.2⟩

/-- C5: `can_proceed` equals "(daily limit unset OR post-reset daily count
below it) AND (hourly limit unset OR post-reset hourly count below it)"; with
`daily_limit = 1000` and 1000 recorded calls in the same day it is false. -/
theorem C5_can_proceed_formula :
    (∀ (r : RateLimitState) (d h : Int),
      ((get_remaining_quota r d h).1.can_proceed = true ↔
        ((r.daily_limit = none ∨
            ∃ l, r.daily_limit = some l ∧
              (get_remaining_quota r d h).2.requests_today < l) ∧
          (r.hourly_limit = none ∨
            ∃ l, r.hourly_limit = some l ∧
              (get_remaining_quota r d h).2.requests_this_hour < l)))) ∧
    (get_remaining_quota exhaustedProbe 0 0).1.can_proceed = false := by
  constructor
  · intro r d h
    rw [get_remaining_quota_can_proceed_eq, Bool.and_eq_true,
      nullOrLt_eq_true_iff, nullOrLt_eq_true_iff, get_remaining_quota_snd,
      resetWindows_daily_limit, resetWindows_hourly_limit]
  · decide

/-- C6 counterexample: with the stored daily window a day ahead of the clock
(`window_date = 1`, current date 0) the two dates differ, yet the check
neither resets the daily counter nor moves the window: the guard in the code
is `window_date < CURRENT_DATE`, not inequality. -/
theorem C6_counterexample_future_window :
    (0 : Int) ≠ futureWindowProbe.window_date ∧
    ¬((get_remaining_quota futureWindowProbe 0 0).2.requests_today = 0 ∧
      (get_remaining_quota futureWindowProbe 0 0).2.window_date = 0) := by
  decide

/-- C6 (amended): if the stored daily window precedes the current date the
daily counter is zeroed and the window set to the current date; if the
current hour differs from the stored hourly window the hourly counter and
window are reset; after a day-boundary rollover the check authorizes with the
daily counter at zero, limits permitting. -/
theorem C6_amended_window_reset (r : RateLimitState) (d h : Int) :
    (r.window_date < d →
      (get_remaining_quota r d h).2.requests_today = 0 ∧
      (get_remaining_quota r d h).2.window_date = d) ∧
    (r.window_hour ≠ h →
      (get_remaining_quota r d h).2.requests_this_hour = 0 ∧
      (get_remaining_quota r d h).2.window_hour = h) ∧
    (r.window_date < d →
      (∀ l, r.daily_limit = some l → 0 < l) →
      (r.hourly_limit = none ∨
        ∃ l, r.hourly_limit = some l ∧
          (get_remaining_quota r d h).2.requests_this_hour < l) →
      ((get_remaining_quota r d h).1.can_proceed = true ∧
       (get_remaining_quota r d h).2.requests_today = 0)) := by
  rw [get_remaining_quota_can_proceed_eq, get_remaining_quota_snd]
  refine ⟨fun hlt => resetWindows_requests_today_of_lt r d h hlt,
    fun hne => resetWindows_hourly_of_ne r d h hne,
    fun hlt hdl hhl => ?_⟩
  have h0 := (resetWindows_requests_today_of_lt r d h hlt).1
  refine ⟨?_, h0⟩
  rw [Bool.and_eq_true]
  constructor
  · rw [nullOrLt_eq_true_iff, h0, resetWindows_daily_limit]
    cases hdlim : r.daily_limit with
    | none => exact Or.inl rfl
    | some l => exact Or.inr ⟨l, rfl, hdl l hdlim⟩
  · rw [nullOrLt_eq_true_iff, resetWindows_hourly_limit]
    exact hhl

/-- C6 witness: crossing a day and an hour boundary on `rolloverProbe` resets
both counters and windows and authorizes the call. -/
theorem C6_amended_window_reset_witness :
    (get_remaining_quota rolloverProbe 1 6).2.requests_today = 0 ∧
    (get_remaining_quota rolloverProbe 1 6).2.window_date = 1 ∧
    (get_remaining_quota rolloverProbe 1 6).2.requests_this_hour = 0 ∧
    (get_remaining_quota rolloverProbe 1 6).2.window_hour = 6 ∧
    (get_remaining_quota rolloverProbe 1 6).1.can_proceed = true := by
  have H := C6_amended_window_reset rolloverProbe 1 6
  have hd := H.1 (by decide)
  have hh := H.2.1 (by decide)
  have hc := H.2.2 (by decide)
    (by intro l hl; injection hl with h2; omega)
    (Or.inr ⟨30, rfl, by decide⟩)
  exact ⟨hd.1, hd.2, hh.1, hh.2, hc.1⟩

/-- C2 counterexample: an authorized check leaves `requests_today` untouched —
`get_remaining_quota` performs the window reset and the `can_proceed`
evaluation but no counter increment. -/
theorem C2_counterexample_no_increment :
    (get_remaining_quota quotaProbe 5 7).1.can_proceed = true ∧
    (get_remaining_quota quotaProbe 5 7).2.requests_today ≠
      quotaProbe.requests_today + 1 := by
  decide

/-- C2 (amended): the quota check atomically performs the window reset and
the `can_proceed` evaluation but does not increment the counters (that is the
caller's separate step); still, at the moment a call is authorized, each
counter is strictly below its configured limit, and the check itself never
increases a counter. -/
theorem C2_amended_quota_check (r : RateLimitState) (d h : Int)
    (hcan : (get_remaining_quota r d h).1.can_proceed = true) :
    (∀ l, r.daily_limit = some l →
      (get_remaining_quota r d h).2.requests_today < l) ∧
    (∀ l, r.hourly_limit = some l →
      (get_remaining_quota r d h).2.requests_this_hour < l) ∧
    ((get_remaining_quota r d h).2.requests_today = r.requests_today ∨
      (get_remaining_quota r d h).2.requests_today = 0) ∧
    ((get_remaining_quota r d h).2.requests_this_hour = r.requests_this_hour ∨
      (get_remaining_quota r d h).2.requests_this_hour = 0) := by
  rw [get_remaining_quota_can_proceed_eq, Bool.and_eq_true,
    nullOrLt_eq_true_iff, nullOrLt_eq_true_iff,
    resetWindows_daily_limit, resetWindows_hourly_limit] at hcan
  rw [get_remaining_quota_snd]
  obtain ⟨hd, hh⟩ := hcan
  refine ⟨?_, ?_, resetWindows_requests_today_cases r d h,
    resetWindows_requests_this_hour_cases r d h⟩
  · intro l hl
    rcases hd with hnone | ⟨l2, hl2, hlt⟩
    · rw [hl] at hnone
      exact absurd hnone (by simp)
    · rw [hl] at hl2
      injection hl2 with heq
      rw [heq]
      exact hlt
  · intro l hl
    rcases hh with hnone | ⟨l2, hl2, hlt⟩
    · rw [hl] at hnone
      exact absurd hnone (by simp)
    · rw [hl] at hl2
      injection hl2 with heq
      rw [heq]
      exact hlt

/-- C2 witness: the authorized check on `quotaProbe` leaves the daily counter
strictly below the limit 1000 and does not increment it. -/
theorem C2_amended_quota_check_witness :
    (get_remaining_quota quotaProbe 5 7).2.requests_today < 1000 ∧
    ((get_remaining_quota quotaProbe 5 7).2.requests_today =
        quotaProbe.requests_today ∨
      (get_remaining_quota quotaProbe 5 7).2.requests_today = 0) := by
  have H := C2_amended_quota_check quotaProbe 5 7 (by decide)
  exact ⟨H.1 1000 rfl, H.2.2.1⟩

/-- C7: `priority_tier` follows the fixed thresholds (≥75 high, 50–75 medium,
below 50 low) and is a function of the total score alone — two rows with the
same score always carry the same generated tier. -/
theorem C7_priority_tier_thresholds :
    (∀ s : ℚ, (75 ≤ s → priority_tier (some s) = "high") ∧
      (50 ≤ s → s < 75 → priority_tier (some s) = "medium") ∧
      (s < 50 → priority_tier (some s) = "low")) ∧
    (∀ r1 r2 : TenantOpportunityRow, r1.total_score = r2.total_score →
      rowPriorityTier r1 = rowPriorityTier r2) := by
  constructor
  · intro s
    refine ⟨fun h75 => ?_, fun h50 h75 => ?_, fun h50 => ?_⟩
    · simp [priority_tier, h75]
    · simp [priority_tier, h50, not_le.mpr h75]
    · simp [priority_tier, not_le.mpr (h50.trans (by norm_num : (50:ℚ) < 75)),
        not_le.mpr h50]
  · intro r1 r2 hs
    unfold rowPriorityTier
    rw [hs]

/-- C7 witness: scores 80, 60 and 10 land in the high, medium and low tiers. -/
theorem C7_priority_tier_thresholds_witness :
    priority_tier (some 80) = "high" ∧ priority_tier (some 60) = "medium" ∧
    priority_tier (some 10) = "low" := by
  have H := C7_priority_tier_thresholds.1
  exact ⟨(H 80).1 (by norm_num), (H 60).2.1 (by norm_num) (by norm_num),
    (H 10).2.2 (by norm_num)⟩

/-- C8: a NULL `total_score` generates the tier `low`, indistinguishable from
a genuinely low score at the read interface. -/
theorem C8_null_score_low_tier :
    priority_tier none = "low" ∧ priority_tier none = priority_tier (some 10) := by
  exact ⟨rfl, by decide⟩

/-- C4: every total score written by a scoring pass lies in [0,100], and the
applied qualitative adjustment has magnitude at most the configured maximum. -/
theorem C4_total_score_clamped (trigger maxAdjustment : ℚ) (subScores : List ℚ)
    (analysis : Option ℚ) (hm : 0 ≤ maxAdjustment) :
    0 ≤ (scoreOpportunity trigger maxAdjustment subScores analysis).total_score ∧
    (scoreOpportunity trigger maxAdjustment subScores analysis).total_score ≤ 100 ∧
    |(scoreOpportunity trigger maxAdjustment subScores analysis).llm_adjustment| ≤
      maxAdjustment := by
  have hc0 : ∀ x : ℚ, 0 ≤ clampScore x := fun x => le_max_left 0 _
  have hc100 : ∀ x : ℚ, clampScore x ≤ 100 :=
    fun x => max_le (by norm_num) (min_le_right x 100)
  unfold scoreOpportunity
  dsimp only
  split
  · cases analysis with
    | some adj =>
        dsimp only
        refine ⟨hc0 _, hc100 _, ?_⟩
        rw [abs_le]
        exact ⟨le_max_left _ _, max_le (by linarith) (min_le_right _ _)⟩
    | none =>
        exact ⟨hc0 _, hc100 _, by rw [abs_zero] at *; exact hm⟩
  · exact ⟨hc0 _, hc100 _, by rw [abs_zero] at *; exact hm⟩

/-- C4 witness: sub-scores 30 and 40 with trigger 50, max adjustment 20 and a
raw analyzer adjustment of 50 yield a total in [0,100] and an applied
adjustment of magnitude at most 20. -/
theorem C4_total_score_clamped_witness :
    0 ≤ (scoreOpportunity 50 20 [30, 40] (some 50)).total_score ∧
    (scoreOpportunity 50 20 [30, 40] (some 50)).total_score ≤ 100 ∧
    |(scoreOpportunity 50 20 [30, 40] (some 50)).llm_adjustment| ≤ 20 :=
  C4_total_score_clamped 50 20 [30, 40] (some 50) (by norm_num)

/-- C10: the effective page size is clamped to [1,100] (defaulting to 50 when
the parameter is absent or parses to NaN), the offset is at least 0, and the
response data array never holds more than 100 rows. -/
theorem C10_pagination_clamped (rawLimit rawOffset : Option (Option ℚ)) :
    1 ≤ limitParam rawLimit ∧ limitParam rawLimit ≤ 100 ∧
    limitParam none = 50 ∧ limitParam (some none) = 50 ∧
    0 ≤ offsetParam rawOffset ∧
    ∀ (α : Type) (rows : List α),
      (pageRows rows rawLimit rawOffset).length ≤ 100 := by
  have hub : limitParam rawLimit ≤ 100 :=
    max_le (by norm_num) (min_le_right _ _)
  refine ⟨le_max_left 1 _, hub, by decide, by decide, le_max_left 0 _, ?_⟩
  intro α rows
  have h1 : (pageRows rows rawLimit rawOffset).length ≤
      (Int.ceil (limitParam rawLimit)).toNat := by
    unfold pageRows
    rw [List.length_take]
    exact min_le_left _ _
  have h2 : Int.ceil (limitParam rawLimit) ≤ (100 : Int) := by
    rw [Int.ceil_le]
    exact_mod_cast hub
  exact le_trans h1 (Int.toNat_le.mpr (by exact_mod_cast h2))

end GovWin
